import Mathlib

/-!
Verification development for the bounty lifecycle core of the GOF2BountyBot
repository. The Python sources embedded here are
src/bot/gameObjects/bounties/bounty.py (class Bounty) and
src/bot/gameObjects/bounties/bountyConfig.py (class BountyConfig).

Modelling conventions:
* Python dicts are association lists (List (key, value)); assignment updates
  the first matching key in place and appends a fresh key at the end, which
  matches the insertion-order semantics of Python dicts.
* A dict read that can raise KeyError is modelled with Option; a function
  that can raise is modelled with Option or Except.
* Python ints are Int; the timestamps (floats used only for equality with
  the -1.0 sentinel, addition of whole days and comparison) are modelled as
  Int seconds, exact for every value the code manipulates.
* The expression int(self.reward / len(self.route)) truncates toward zero,
  which is Int.tdiv.
* str.lower and str.title are modelled on the ASCII alphabet, the alphabet
  of all the system, faction and criminal names the code handles.
-/

namespace GOF2

/-- Association list lookup: the value stored at the first occurrence of the
key, the model of a Python dict read. -/
def alLookup [DecidableEq κ] : List (κ × α) → κ → Option α
  | [], _ => none
  | (k0, v0) :: t, k => if k0 = k then some v0 else alLookup t k

/-- Association list update: the model of a Python dict assignment.
Replaces the first occurrence of the key, appends when absent. -/
def alInsert [DecidableEq κ] : List (κ × α) → κ → α → List (κ × α)
  | [], k, v => [(k, v)]
  | (k0, v0) :: t, k, v => if k0 = k then (k, v) :: t else (k0, v0) :: alInsert t k v

/-- Key list of an association list, the model of Python dict keys. -/
def alKeys (m : List (κ × α)) : List κ := m.map Prod.fst

/-- Model of the ASCII behaviour of the Python str.lower method. -/
def pyLower (s : String) : String := String.mk (s.data.map Char.toLower)

/-- Helper for pyTitle: the Bool records whether the previous character was
a letter. -/
def pyTitleAux : List Char → Bool → List Char
  | [], _ => []
  | c :: t, prevAlpha =>
    (if c.isAlpha then (if prevAlpha then c.toLower else c.toUpper) else c)
      :: pyTitleAux t c.isAlpha

/-- Model of the ASCII behaviour of the Python str.title method: the first
letter of every run of letters is uppercased, the rest lowercased. -/
def pyTitle (s : String) : String := String.mk (pyTitleAux s.data false)

/-- One entry of the mapping returned by Bounty.calcRewards, the dict
literal on line 133 of bounty.py. -/
structure RewardEntry where
  reward : Int
  checked : Nat
  won : Bool
deriving Repr, DecidableEq

/-- The mapping returned by Bounty.calcRewards: user id to reward entry. -/
abbrev RewardsMap := List (Int × RewardEntry)

/-- The Bounty game object of bounty.py. The criminal is kept only as the
faction snapshot the constructor copies into self.faction; respawnTT is the
optional TimedTask reference, identified by an abstract task id. -/
structure Bounty where
  faction : String
  issueTime : Int
  endTime : Int
  route : List String
  reward : Int
  checked : List (String × Int)
  answer : String
  respawnTT : Option Nat
deriving Repr, DecidableEq

/-- Bounty.systemChecked (bounty.py lines 110-117):
return self.checked[system] != -1, with the possible KeyError as none. -/
def Bounty.systemChecked (b : Bounty) (system : String) : Option Bool :=
  (alLookup b.checked system).map (fun v => v != -1)

/-- Bounty.check (bounty.py lines 87-107). Returns the outcome code and the
updated bounty; none models the KeyError raised by systemChecked when the
system is on the route but missing from the checked dict. -/
def Bounty.check (b : Bounty) (system : String) (userID : Int) :
    Option (Nat × Bounty) :=
  if system ∈ b.route then
    match b.systemChecked system with
    | none => none
    | some true => some (1, b)
    | some false =>
      let b2 : Bounty := { b with checked := alInsert b.checked system userID }
      if b.answer = system then some (3, b2) else some (2, b2)
  else some (0, b)

/-- The per-system share int(self.reward / len(self.route)) of
bounty.py lines 141 and 144: Python float division then truncation toward
zero, exact on the int inputs the code uses. -/
def bountyShare (b : Bounty) : Int := b.reward.tdiv (b.route.length : Int)

/-- First loop of Bounty.calcRewards (lines 128-133): count the checked
systems and build the zero-initialised rewards dict. The systemChecked call
and the following checked dict read are one lookup here; none models the
KeyError when a route system is missing from the checked dict. -/
def crPhase1 (b : Bounty) : List String → Nat → RewardsMap →
    Option (Nat × RewardsMap)
  | [], c, rm => some (c, rm)
  | s :: rest, c, rm =>
    match alLookup b.checked s with
    | none => none
    | some v =>
      if v = -1 then crPhase1 b rest c rm
      else
        let rm2 := if (alLookup rm v).isNone
                   then alInsert rm v ⟨0, 0, false⟩ else rm
        crPhase1 b rest (c + 1) rm2

/-- Second loop of Bounty.calcRewards (lines 137-144): accumulate checked
counts, the per-system share, the answer bonus and the won flag. none
models the KeyError on either dict read. -/
def crPhase2 (b : Bounty) (u : Nat) : List String → RewardsMap →
    Option RewardsMap
  | [], rm => some rm
  | s :: rest, rm =>
    match alLookup b.checked s with
    | none => none
    | some v =>
      if v = -1 then crPhase2 b u rest rm
      else
        match alLookup rm v with
        | none => none
        | some e =>
          let e2 : RewardEntry :=
            if b.answer = s then
              { reward := e.reward + bountyShare b * ((u : Int) + 1),
                checked := e.checked + 1, won := true }
            else
              { reward := e.reward + bountyShare b,
                checked := e.checked + 1, won := e.won }
          crPhase2 b u rest (alInsert rm v e2)

/-- Bounty.calcRewards (bounty.py lines 120-145). -/
def Bounty.calcRewards (b : Bounty) : Option RewardsMap := do
  let (c, rm) ← crPhase1 b b.route 0 []
  crPhase2 b (b.route.length - c) b.route rm

/-- Bounty.isEscaped (bounty.py lines 148-154): the code literally returns
self.respawnTT is None. -/
def Bounty.isEscaped (b : Bounty) : Bool := b.respawnTT.isNone

/-- Bounty.escape (bounty.py lines 157-166): raise (none) when isEscaped,
else attach the supplied respawn task. -/
def Bounty.escape (b : Bounty) (respawnTT : Nat) : Option Bounty :=
  if b.isEscaped then none
  else some { b with respawnTT := some respawnTT }

/-- The exceptions the respawn methods can raise: the explicit ValueError,
and the AttributeError from calling forceExpire on None. -/
inductive RespawnFailure
  | valueFailure
  | attributeFailure
deriving Repr, DecidableEq

/-- Bounty.cancelRespawn (bounty.py lines 169-177): raise ValueError when
not isEscaped; otherwise call self.respawnTT.forceExpire (which, because
isEscaped means respawnTT is None, raises AttributeError) and clear the
task. The forceExpire side effect lives on the external task object. -/
def Bounty.cancelRespawn (b : Bounty) : Except RespawnFailure Bounty :=
  if !b.isEscaped then .error .valueFailure
  else
    match b.respawnTT with
    | none => .error .attributeFailure
    | some _ => .ok { b with respawnTT := none }

/-- Bounty.forceRespawn (bounty.py lines 180-188): same shape as
cancelRespawn, only the forceExpire flag on the external task differs. -/
def Bounty.forceRespawn (b : Bounty) : Except RespawnFailure Bounty :=
  if !b.isEscaped then .error .valueFailure
  else
    match b.respawnTT with
    | none => .error .attributeFailure
    | some _ => .ok { b with respawnTT := none }

/-- The BountyConfig staging object of bountyConfig.py. The field end of
the source is renamed stop (end is a Lean keyword); the external ship
object is not part of the core data. -/
structure BountyConfig where
  faction : String
  name : String
  isPlayer : Bool
  route : List String
  start : String
  stop : String
  answer : String
  checked : List (String × Int)
  reward : Int
  issueTime : Int
  endTime : Int
  icon : String
  aliases : List String
  wiki : String
  generated : Bool
  builtIn : Bool
deriving Repr, DecidableEq

/-- BountyConfig constructor (bountyConfig.py lines 56-118): lowercases
the faction, titlecases the name, every route member, start, end and
answer, and stores everything else unchanged with generated = False.
The float-to-int reward coercion of line 107 is the identity on the Int
rewards of this model. -/
def BountyConfig.init (faction name : String) (isPlayer : Option Bool)
    (route : List String) (start stop answer : String)
    (checked : List (String × Int)) (reward : Int) (issueTime endTime : Int)
    (icon : String) (aliases : List String) (wiki : String) : BountyConfig :=
  { faction := pyLower faction
    name := pyTitle name
    isPlayer := isPlayer.getD false
    route := route.map pyTitle
    start := pyTitle start
    stop := pyTitle stop
    answer := pyTitle answer
    checked := checked
    reward := reward
    issueTime := issueTime
    endTime := endTime
    icon := icon
    aliases := aliases
    wiki := wiki
    generated := false
    builtIn := false }

/-- The static game data and configuration generate reads: bbData and cfg
of the source. aStar stands for lib.pathfinding.bbAStar, which is not part
of the embedded sources. Modelled from the spec: the Route Planner returns
the minimum-cost path from start to end inclusive of both endpoints. -/
structure GenEnv where
  systems : List String
  hasJumpGate : String → Bool
  bountyFactions : List String
  bountyNamesKeys : List String
  bountyNamesFor : String → List String
  rocketIcon : String
  bPointsToCreditsRatio : Nat
  aStar : String → String → List String

/-- The owning BountyDB as generate consults it. -/
structure BountyDB where
  factionCanMakeBounty : String → Bool
  bountyNameExists : String → Bool

/-- Oracle resolving the calls to random.choice and datetime.utcnow inside
generate. Each retry loop draws its i-th candidate from its own index
stream; fuel bounds the loops (the Python loops simply do not return when
no candidate ever satisfies the exit condition). -/
structure GenOracle where
  factionIdx : Nat → Nat
  nameIdx : Nat → Nat
  startIdx : Nat → Nat
  endIdx : Nat → Nat
  answerIdx : Nat
  nowTS : Int
  fuel : Nat

/-- The exceptions generate can raise, plus the marker for a retry loop
that never exits (nonTermination never occurs in the Python semantics; it
stands for the loop spinning forever). -/
inductive GenFailure
  | valueFailure
  | indexFailure
  | keyFailure
  | nonTermination
deriving Repr, DecidableEq

/-- Model of random.choice: a uniformly drawn member of the list, here the
member selected by the oracle index; raises IndexError (none) on an empty
sequence exactly as random.choice does. -/
def pyChoice (l : List α) (i : Nat) : Option α := l[i % l.length]?

/-- Model of the draw-then-retry loops of generate: draw a candidate, retry
while the bad condition holds. -/
def pickUntil (pick : Nat → Option α) (bad : α → Bool) :
    Nat → Nat → Except GenFailure α
  | 0, _ => .error .nonTermination
  | n + 1, i =>
    match pick i with
    | none => .error .indexFailure
    | some x => if bad x then pickUntil pick bad n (i + 1) else .ok x

/-- Lines 139-170 of bountyConfig.py: resolve builtIn, faction, name and
icon. Returns the resolved (faction, name, icon, builtIn). -/
def genCriminalStage (cfg : BountyConfig) (env : GenEnv) (db : BountyDB)
    (o : GenOracle) (noCriminal doDBCheck : Bool) :
    Except GenFailure (String × String × String × Bool) :=
  if noCriminal then
    if cfg.name ∈ env.bountyNamesKeys then
      .ok (cfg.faction, cfg.name, cfg.icon, true)
    else do
      let fa ←
        if cfg.faction = "" then
          pickUntil (fun i => pyChoice env.bountyFactions (o.factionIdx i))
            (fun f => doDBCheck && !db.factionCanMakeBounty f) o.fuel 0
        else if cfg.faction ∉ env.bountyFactions then
          .error .valueFailure
        else if doDBCheck && !db.factionCanMakeBounty cfg.faction then
          .error .indexFailure
        else .ok cfg.faction
      if cfg.name = "" then do
        let na ←
          pickUntil (fun i => pyChoice (env.bountyNamesFor fa) (o.nameIdx i))
            (fun n => doDBCheck && db.bountyNameExists n) o.fuel 0
        .ok (fa, na, cfg.icon, true)
      else if doDBCheck && db.bountyNameExists cfg.name then
        .error .keyFailure
      else if cfg.icon = "" then
        .ok (fa, cfg.name, env.rocketIcon, cfg.builtIn)
      else .ok (fa, cfg.name, cfg.icon, cfg.builtIn)
  else
    if doDBCheck && !db.factionCanMakeBounty cfg.faction then
      .error .indexFailure
    else .ok (cfg.faction, cfg.name, cfg.icon, cfg.builtIn)

/-- Lines 173-178 of bountyConfig.py: resolve the start system, re-rolling
while it equals the current end or lacks a jump gate. -/
def genStartStage (cfg : BountyConfig) (env : GenEnv) (o : GenOracle) :
    Except GenFailure String :=
  if cfg.start = "" then
    pickUntil (fun i => pyChoice env.systems (o.startIdx i))
      (fun s => s = cfg.stop || !env.hasJumpGate s) o.fuel 0
  else if cfg.start ∉ env.systems then .error .keyFailure
  else .ok cfg.start

/-- Lines 179-184 of bountyConfig.py: resolve the end system, re-rolling
while it equals the resolved start or lacks a jump gate. -/
def genEndStage (cfg : BountyConfig) (env : GenEnv) (o : GenOracle)
    (st : String) : Except GenFailure String :=
  if cfg.stop = "" then
    pickUntil (fun i => pyChoice env.systems (o.endIdx i))
      (fun e => st = e || !env.hasJumpGate e) o.fuel 0
  else if cfg.stop ∉ env.systems then .error .keyFailure
  else .ok cfg.stop

/-- Lines 172-190 of bountyConfig.py: resolve (start, end, route). An
explicit route is validated member by member against the known systems
(the loop raises KeyError at the first unknown member, observationally the
same as this all-members check). -/
def genRouteStage (cfg : BountyConfig) (env : GenEnv) (o : GenOracle) :
    Except GenFailure (String × String × List String) :=
  if cfg.route = [] then do
    let st ← genStartStage cfg env o
    let en ← genEndStage cfg env o st
    .ok (st, en, env.aStar st en)
  else
    if cfg.route.all (fun s => decide (s ∈ env.systems)) then
      .ok (cfg.start, cfg.stop, cfg.route)
    else .error .keyFailure

/-- Lines 191-194 of bountyConfig.py: resolve the answer. An unset answer
is a random member of the route (IndexError on an empty route, as
random.choice raises); an explicit answer is only checked to be a known
system name. -/
def genAnswerStage (cfg : BountyConfig) (env : GenEnv) (o : GenOracle) :
    Except GenFailure String :=
  if cfg.answer = "" then
    match pyChoice cfg.route o.answerIdx with
    | none => .error .indexFailure
    | some a => .ok a
  else if cfg.answer ∉ env.systems then .error .keyFailure
  else .ok cfg.answer

/-- Lines 196-199 of bountyConfig.py: resolve the reward. The exact value
-1 is the unset sentinel and is replaced by
int(len(route) * bPointsToCreditsRatio); any other negative value raises
ValueError. -/
def genRewardStage (cfg : BountyConfig) (env : GenEnv) :
    Except GenFailure Int :=
  if cfg.reward = -1 then
    .ok ((cfg.route.length * env.bPointsToCreditsRatio : Nat) : Int)
  else if cfg.reward < 0 then .error .valueFailure
  else .ok cfg.reward

/-- The single iteration of the checked back-fill loop, lines 207-209 of
bountyConfig.py. -/
def genCheckedStep (forceKeepChecked : Bool) (m : List (String × Int))
    (station : String) : List (String × Int) :=
  if !forceKeepChecked || (alLookup m station).isNone || decide (m = []) then
    alInsert m station (-1)
  else m

/-- The checked back-fill loop over a route, lines 207-209. -/
def genCheckedFold (forceKeepChecked : Bool) (l : List String)
    (m : List (String × Int)) : List (String × Int) :=
  l.foldl (genCheckedStep forceKeepChecked) m

/-- Lines 205-209 of bountyConfig.py: rebuild or back-fill the checked
dict. When forceKeepChecked is false the dict is rebuilt from scratch;
otherwise existing entries survive and missing route members get the -1
sentinel. -/
def genCheckedStage (cfg : BountyConfig) (forceKeepChecked : Bool) :
    List (String × Int) :=
  genCheckedFold forceKeepChecked cfg.route
    (if forceKeepChecked then cfg.checked else [])

/-- Record update for the first stage results of generate. -/
def withCrim (cfg : BountyConfig) (fa na ic : String) (bi : Bool) :
    BountyConfig :=
  { cfg with faction := fa, name := na, icon := ic, builtIn := bi }

/-- Record update for the route stage results of generate. -/
def withRoute (cfg : BountyConfig) (st en : String) (rt : List String) :
    BountyConfig :=
  { cfg with start := st, stop := en, route := rt }

/-- Record update for the answer stage result of generate. -/
def withAnswer (cfg : BountyConfig) (ans : String) : BountyConfig :=
  { cfg with answer := ans }

/-- Record update for the reward stage result of generate. -/
def withReward (cfg : BountyConfig) (rw : Int) : BountyConfig :=
  { cfg with reward := rw }

/-- Lines 200-211 of bountyConfig.py: resolve the timestamps (the unset
sentinel -1.0 becomes now, respectively issueTime plus one day of 86400
seconds per route member), run the checked back-fill loop and set
generated. -/
def finishTimesChecked (cfg : BountyConfig) (o : GenOracle)
    (forceKeepChecked : Bool) : BountyConfig :=
  let it := if cfg.issueTime = -1 then o.nowTS else cfg.issueTime
  let et := if cfg.endTime = -1 then it + 86400 * (cfg.route.length : Int)
            else cfg.endTime
  let cfg5 := { cfg with issueTime := it, endTime := et }
  { cfg5 with checked := genCheckedStage cfg5 forceKeepChecked,
              generated := true }

/-- BountyConfig.generate (bountyConfig.py lines 121-211), assembled from
the stages above in source order. -/
def BountyConfig.generate (cfg0 : BountyConfig) (env : GenEnv) (db : BountyDB)
    (o : GenOracle) (noCriminal forceKeepChecked forceNoDBCheck : Bool) :
    Except GenFailure BountyConfig := do
  let doDBCheck := !forceNoDBCheck
  let (fa, na, ic, bi) ← genCriminalStage cfg0 env db o noCriminal doDBCheck
  let (st, en, rt) ← genRouteStage (withCrim cfg0 fa na ic bi) env o
  let cfg2 := withRoute (withCrim cfg0 fa na ic bi) st en rt
  let ans ← genAnswerStage cfg2 env o
  let rw ← genRewardStage (withAnswer cfg2 ans) env
  .ok (finishTimesChecked (withReward (withAnswer cfg2 ans) rw) o
        forceKeepChecked)

/-- Bounty construction from a generated config (bounty.py lines 77-84):
the faction snapshot comes from the criminal, the rest from the config,
and no respawn task is attached. -/
def Bounty.fromConfig (cfg : BountyConfig) (criminalFaction : String) :
    Bounty :=
  { faction := criminalFaction
    issueTime := cfg.issueTime
    endTime := cfg.endTime
    route := cfg.route
    reward := cfg.reward
    checked := cfg.checked
    answer := cfg.answer
    respawnTT := none }

/-- The structural form Bounty.toDict produces (bounty.py lines 191-199).
The embedded criminal record is kept as the faction the criminal carries,
the only part of it the reconstruction feeds back into the core state. -/
structure BountyDict where
  faction : String
  route : List String
  answer : String
  checked : List (String × Int)
  reward : Int
  issueTime : Int
  endTime : Int
  criminalFaction : String
deriving Repr, DecidableEq

/-- Bounty.toDict (bounty.py lines 191-199). self.faction was copied from
the criminal at construction, so the embedded criminal record carries the
same faction. -/
def Bounty.toDict (b : Bounty) : BountyDict :=
  { faction := b.faction
    route := b.route
    answer := b.answer
    checked := b.checked
    reward := b.reward
    issueTime := b.issueTime
    endTime := b.endTime
    criminalFaction := b.faction }

/-- Bounty.fromDict (bounty.py lines 202-221): rebuild a BountyConfig from
the dict fields, then run the Bounty constructor, which calls
generate(owningDB, noCriminal = False, forceKeepChecked = dbReload,
forceNoDBCheck = dbReload) because a criminal object is supplied and the
config is not yet generated. -/
def Bounty.fromDict (d : BountyDict) (env : GenEnv) (db : BountyDB)
    (o : GenOracle) (dbReload : Bool) : Except GenFailure Bounty := do
  let cfg := BountyConfig.init d.faction "" none d.route "" "" d.answer
    d.checked d.reward d.issueTime d.endTime "" [] ""
  let cfg2 ← cfg.generate env db o false dbReload dbReload
  .ok (Bounty.fromConfig cfg2 d.criminalFaction)

/-! ### Analysis helpers: Bool predicates and sums used to characterise
calcRewards. -/

/-- The system was checked by contributor k: its checked entry exists, is
not the -1 sentinel and equals k. -/
def checkedBy (b : Bounty) (s : String) (k : Int) : Bool :=
  match alLookup b.checked s with
  | some v => v != -1 && v == k
  | none => false

/-- The system was checked by someone: its checked entry exists and is not
the -1 sentinel. -/
def sysChk (b : Bounty) (s : String) : Bool :=
  match alLookup b.checked s with
  | some v => v != -1
  | none => false

/-- Number of shares one checked route occurrence is worth: the answer is
worth uncheckedSystems + 1 shares, any other system one share. -/
def wContrib (b : Bounty) (u : Nat) (s : String) : Int :=
  if b.answer = s then (u : Int) + 1 else 1

/-- Shares contributor k earns from a list of route occurrences. -/
def wsum (b : Bounty) (u : Nat) (k : Int) : List String → Int
  | [] => 0
  | s :: t => (if checkedBy b s k then wContrib b u s else 0) + wsum b u k t

/-- Shares earned over a list of route occurrences by all contributors. -/
def wtotal (b : Bounty) (u : Nat) : List String → Int
  | [] => 0
  | s :: t => (if sysChk b s then wContrib b u s else 0) + wtotal b u t

/-- Total credits handed out by a rewards mapping. -/
def rmSum (rm : RewardsMap) : Int := (rm.map (fun p => p.2.reward)).sum

/-- Number of route occurrences that are checked, the checkedSystems
counter of calcRewards. -/
def checkedCount (b : Bounty) : Nat := b.route.countP (sysChk b)

/-- The uncheckedSystems value of calcRewards. -/
def uncheckedCount (b : Bounty) : Nat := b.route.length - checkedCount b

/-! ### Concrete instances used by counterexamples and witnesses. -/

/-- Concrete static data for concrete generate runs. -/
def envX : GenEnv :=
  { systems := ["Alpha", "Beta", "Gamma"]
    hasJumpGate := fun _ => true
    bountyFactions := ["fed"]
    bountyNamesKeys := []
    bountyNamesFor := fun _ => []
    rocketIcon := "rocket"
    bPointsToCreditsRatio := 10
    aStar := fun _ _ => ["Alpha", "Beta"] }

/-- Concrete bounty database with room for every faction and no existing
names. -/
def dbX : BountyDB :=
  { factionCanMakeBounty := fun _ => true, bountyNameExists := fun _ => false }

/-- Concrete oracle for concrete generate runs. -/
def oX : GenOracle :=
  { factionIdx := fun _ => 0, nameIdx := fun _ => 0, startIdx := fun _ => 0
    endIdx := fun _ => 0, answerIdx := 0, nowTS := 1000, fuel := 4 }

/-- Config with an explicit answer that is a known system but not a route
member. -/
def cfgAnsOff : BountyConfig := BountyConfig.init "fed" "Badguy" none
  ["Alpha", "Beta"] "" "" "Gamma" [] 40 5 99 "" [] ""

/-- Config reloaded with forceKeepChecked and a stale checked key that is
not on the route. -/
def cfgStale : BountyConfig := BountyConfig.init "fed" "Badguy" none
  ["Alpha"] "" "" "Alpha" [("Zeta", 7)] 40 5 99 "" [] ""

/-- Config with explicit timestamps in the wrong order. -/
def cfgLate : BountyConfig := BountyConfig.init "fed" "Badguy" none
  ["Alpha"] "" "" "Alpha" [] 40 99 5 "" [] ""

/-- Config with the explicit negative reward -1, the unset sentinel. -/
def cfgNegOne : BountyConfig := BountyConfig.init "fed" "Badguy" none
  ["Alpha", "Beta"] "" "" "Alpha" [] (-1) 5 99 "" [] ""

/-- Config with an explicit reward below the sentinel. -/
def cfgNegFive : BountyConfig := BountyConfig.init "fed" "Badguy" none
  ["Alpha", "Beta"] "" "" "Alpha" [] (-5) 5 99 "" [] ""

/-- The worked reward example of the specification: route A B C D, answer
C, reward 40, X = 1 checked A, Y = 2 checked C. -/
def bEx : Bounty := ⟨"f", 0, 1, ["A", "B", "C", "D"], 40,
  [("A", 1), ("B", -1), ("C", 2), ("D", -1)], "C", none⟩

/-- A route on which the answer occurs twice, with the answer checked and
one system unchecked. -/
def bDup : Bounty := ⟨"f", 0, 1, ["A", "A", "B"], 40,
  [("A", 5), ("B", -1)], "A", none⟩

/-- A fresh two-system bounty with nothing checked. -/
def bC1 : Bounty := ⟨"f", 0, 1, ["A", "B"], 10,
  [("A", -1), ("B", -1)], "B", none⟩

/-- A bounty carrying an attached respawn task, task id 5. -/
def bEsc : Bounty := ⟨"f", 0, 1, ["A"], 10, [("A", -1)], "A", some 5⟩

/-- A bounty with data suitable for the serialisation round trip. -/
def bRT : Bounty := ⟨"fed", 100, 200, ["Sol", "Vega"], 10,
  [("Sol", 3), ("Vega", -1)], "Vega", none⟩

/-- Static data whose known systems are those of bRT. -/
def envRT : GenEnv := { envX with systems := ["Sol", "Vega"] }

/-- The config generate produces from cfgAnsOff. -/
def cfgAnsOffGen : BountyConfig := ⟨"fed", "Badguy", false,
  ["Alpha", "Beta"], "", "", "Gamma", [("Alpha", -1), ("Beta", -1)],
  40, 5, 99, "rocket", [], "", true, false⟩

/-- The config generate produces from cfgStale under forceKeepChecked. -/
def cfgStaleGen : BountyConfig := ⟨"fed", "Badguy", false,
  ["Alpha"], "", "", "Alpha", [("Zeta", 7), ("Alpha", -1)],
  40, 5, 99, "rocket", [], "", true, false⟩

/-- The config generate produces from cfgLate. -/
def cfgLateGen : BountyConfig := ⟨"fed", "Badguy", false,
  ["Alpha"], "", "", "Alpha", [("Alpha", -1)],
  40, 99, 5, "rocket", [], "", true, false⟩

/-- The config generate produces from cfgNegOne: the explicit reward -1
has been silently replaced by 2 * 10 = 20. -/
def cfgNegOneGen : BountyConfig := ⟨"fed", "Badguy", false,
  ["Alpha", "Beta"], "", "", "Alpha", [("Alpha", -1), ("Beta", -1)],
  20, 5, 99, "rocket", [], "", true, false⟩

end GOF2

namespace GOF2

/-! ### Association list lemmas. -/

theorem alLookup_insert_self [DecidableEq κ] (m : List (κ × α)) (k : κ)
    (v : α) : alLookup (alInsert m k v) k = some v := by
  induction m with
  | nil => simp [alInsert, alLookup]
  | cons p t ih =>
    obtain ⟨k0, v0⟩ := p
    by_cases h : k0 = k <;> simp [alInsert, alLookup, h, ih]

theorem alLookup_insert_ne [DecidableEq κ] (m : List (κ × α)) {k j : κ}
    (v : α) (h : k ≠ j) : alLookup (alInsert m k v) j = alLookup m j := by
  induction m with
  | nil => simp [alInsert, alLookup, h]
  | cons p t ih =>
    obtain ⟨k0, v0⟩ := p
    by_cases h0 : k0 = k
    · subst h0
      simp [alInsert, alLookup, h]
    · simp only [alInsert, if_neg h0]
      by_cases h1 : k0 = j <;> simp [alLookup, h1, ih]

theorem alLookup_isSome_insert [DecidableEq κ] (m : List (κ × α)) (k j : κ)
    (v : α) (h : (alLookup m j).isSome) :
    (alLookup (alInsert m k v) j).isSome := by
  by_cases hk : k = j
  · subst hk
    simp [alLookup_insert_self]
  · rwa [alLookup_insert_ne m v hk]

theorem alLookup_eq_none_iff [DecidableEq κ] (m : List (κ × α)) (k : κ) :
    alLookup m k = none ↔ k ∉ alKeys m := by
  induction m with
  | nil => simp [alLookup, alKeys]
  | cons p t ih =>
    obtain ⟨k0, v0⟩ := p
    by_cases h : k0 = k <;> simp [alLookup, alKeys, h, ih, Ne.symm]

theorem alLookup_isSome_iff_mem [DecidableEq κ] (m : List (κ × α)) (k : κ) :
    (alLookup m k).isSome ↔ k ∈ alKeys m := by
  rw [Option.isSome_iff_ne_none]
  exact (not_iff_not.mpr (alLookup_eq_none_iff m k)).trans not_not

theorem alKeys_insert_of_mem [DecidableEq κ] (m : List (κ × α)) (k : κ)
    (v : α) (h : (alLookup m k).isSome) :
    alKeys (alInsert m k v) = alKeys m := by
  induction m with
  | nil => simp [alLookup] at h
  | cons p t ih =>
    obtain ⟨k0, v0⟩ := p
    by_cases h0 : k0 = k
    · simp [alInsert, alKeys, h0]
    · simp only [alLookup, if_neg h0] at h
      have h2 := ih h
      simp only [alKeys] at h2 ⊢
      simp [alInsert, if_neg h0, h2]

theorem alKeys_insert_of_none [DecidableEq κ] (m : List (κ × α)) (k : κ)
    (v : α) (h : alLookup m k = none) :
    alKeys (alInsert m k v) = alKeys m ++ [k] := by
  induction m with
  | nil => simp [alInsert, alKeys]
  | cons p t ih =>
    obtain ⟨k0, v0⟩ := p
    by_cases h0 : k0 = k
    · simp [alLookup, h0] at h
    · simp only [alLookup, if_neg h0] at h
      have h2 := ih h
      simp only [alKeys] at h2 ⊢
      simp [alInsert, if_neg h0, h2]

theorem mem_of_alLookup [DecidableEq κ] {m : List (κ × α)} {k : κ} {v : α}
    (h : alLookup m k = some v) : (k, v) ∈ m := by
  induction m with
  | nil => simp [alLookup] at h
  | cons p t ih =>
    obtain ⟨k0, v0⟩ := p
    by_cases h0 : k0 = k
    · subst h0
      simp [alLookup] at h
      simp [h]
    · simp only [alLookup, if_neg h0] at h
      simp [ih h]

theorem alLookup_of_mem_nodup [DecidableEq κ] {m : List (κ × α)}
    (hn : (alKeys m).Nodup) {p : κ × α} (hp : p ∈ m) :
    alLookup m p.1 = some p.2 := by
  induction m with
  | nil => simp at hp
  | cons q t ih =>
    obtain ⟨k0, v0⟩ := q
    simp only [alKeys, List.map_cons, List.nodup_cons] at hn
    rcases List.mem_cons.mp hp with h | h
    · subst h
      simp [alLookup]
    · have hk : k0 ≠ p.1 := by
        intro he
        exact hn.1 (he ▸ (List.mem_map.mpr ⟨p, h, rfl⟩))
      simp only [alLookup, if_neg hk]
      exact ih hn.2 h

theorem eq_of_mem_nodup_fst [DecidableEq κ] {m : List (κ × α)}
    (hn : (alKeys m).Nodup) {p q : κ × α} (hp : p ∈ m) (hq : q ∈ m)
    (h : p.1 = q.1) : p = q := by
  have h1 := alLookup_of_mem_nodup hn hp
  have h2 := alLookup_of_mem_nodup hn hq
  rw [h, h2] at h1
  obtain ⟨k, v⟩ := p
  obtain ⟨k2, v2⟩ := q
  simp_all

theorem rmSum_insert_some (rm : RewardsMap) (k : Int) (e0 e : RewardEntry)
    (h : alLookup rm k = some e0) :
    rmSum (alInsert rm k e) = rmSum rm - e0.reward + e.reward := by
  induction rm with
  | nil => simp [alLookup] at h
  | cons p t ih =>
    obtain ⟨k0, v0⟩ := p
    by_cases h0 : k0 = k
    · subst h0
      simp [alLookup] at h
      subst h
      simp [alInsert, rmSum]
      ring
    · simp only [alLookup, if_neg h0] at h
      simp only [alInsert, if_neg h0, rmSum, List.map_cons, List.sum_cons]
      have := ih h
      simp only [rmSum] at this
      rw [this]
      ring

theorem checkedBy_eq (b : Bounty) (s : String) (k : Int) {v : Int}
    (hv : alLookup b.checked s = some v) :
    checkedBy b s k = (v != -1 && v == k) := by
  simp [checkedBy, hv]

theorem sysChk_eq (b : Bounty) (s : String) {v : Int}
    (hv : alLookup b.checked s = some v) : sysChk b s = (v != -1) := by
  simp [sysChk, hv]

theorem rmSum_insert_none (rm : RewardsMap) (k : Int) (e : RewardEntry)
    (h : alLookup rm k = none) :
    rmSum (alInsert rm k e) = rmSum rm + e.reward := by
  induction rm with
  | nil => simp [alInsert, rmSum]
  | cons p t ih =>
    obtain ⟨k0, v0⟩ := p
    by_cases h0 : k0 = k
    · simp [alLookup, h0] at h
    · simp only [alLookup, if_neg h0] at h
      simp only [alInsert, if_neg h0, rmSum, List.map_cons, List.sum_cons]
      have := ih h
      simp only [rmSum] at this
      rw [this]
      ring

/-! ### Characterisation of the two calcRewards loops. -/

theorem crPhase1_cons_none (b : Bounty) (t : List String) (c : Nat)
    (rm : RewardsMap) (s : String) (hv : alLookup b.checked s = none) :
    crPhase1 b (s :: t) c rm = none := by
  simp [crPhase1, hv]

theorem crPhase1_cons_some (b : Bounty) (t : List String) (c : Nat)
    (rm : RewardsMap) (s : String) (v : Int)
    (hv : alLookup b.checked s = some v) :
    crPhase1 b (s :: t) c rm =
      if v = -1 then crPhase1 b t c rm
      else
        crPhase1 b t (c + 1)
          (if (alLookup rm v).isNone then
            alInsert rm v (⟨0, 0, false⟩ : RewardEntry)
          else rm) := by
  simp [crPhase1, hv]

theorem crPhase1_ok (b : Bounty) (l : List String) :
    ∀ {c : Nat} {rm : RewardsMap} {c2 : Nat} {rm2 : RewardsMap},
    crPhase1 b l c rm = some (c2, rm2) →
    c2 = c + l.countP (sysChk b) ∧
    (∀ k e, alLookup rm k = some e → alLookup rm2 k = some e) ∧
    (∀ k, alLookup rm k = none →
      alLookup rm2 k =
        if l.any (fun s => checkedBy b s k) then
          some (⟨0, 0, false⟩ : RewardEntry)
        else none) ∧
    rmSum rm2 = rmSum rm ∧
    ((alKeys rm).Nodup → (alKeys rm2).Nodup) := by
  induction l with
  | nil =>
    intro c rm c2 rm2 h
    simp [crPhase1] at h
    obtain ⟨h1, h2⟩ := h
    subst h1
    subst h2
    simp
  | cons s t ih =>
    intro c rm c2 rm2 h
    cases hv : alLookup b.checked s with
    | none => rw [crPhase1_cons_none b t c rm s hv] at h; simp at h
    | some v =>
      rw [crPhase1_cons_some b t c rm s v hv] at h
      by_cases hv1 : v = -1
      · rw [if_pos hv1] at h
        obtain ⟨ih1, ih2, ih3, ih4, ih5⟩ := ih h
        have hsys : sysChk b s = false := by
          rw [sysChk_eq b s hv, hv1]
          simp
        have hcb : ∀ k, checkedBy b s k = false := by
          intro k
          rw [checkedBy_eq b s k hv, hv1]
          simp
        refine ⟨?_, ih2, ?_, ih4, ih5⟩
        · rw [ih1, List.countP_cons, hsys]
          simp
        · intro k hk
          rw [ih3 k hk, List.any_cons, hcb]
          simp
      · rw [if_neg hv1] at h
        obtain ⟨ih1, ih2, ih3, ih4, ih5⟩ := ih h
        have hsys : sysChk b s = true := by
          rw [sysChk_eq b s hv]
          simp [hv1]
        have hcbv : checkedBy b s v = true := by
          rw [checkedBy_eq b s v hv]
          simp [hv1]
        have hcbk : ∀ k, k ≠ v → checkedBy b s k = false := by
          intro k hk
          rw [checkedBy_eq b s k hv]
          simp
          intro _
          exact fun he => absurd he.symm hk
        refine ⟨?_, ?_, ?_, ?_, ?_⟩
        · rw [ih1, List.countP_cons, hsys]
          simp
          omega
        · intro k e hke
          apply ih2
          by_cases hkv : k = v
          · subst hkv
            simp [hke, alLookup_insert_self]
          · cases halv : (alLookup rm v).isNone with
            | true => simp only [halv, if_pos]
                      rw [alLookup_insert_ne rm _ (fun he => hkv he.symm)]
                      exact hke
            | false => simpa [halv] using hke
        · intro k hk
          by_cases hkv : k = v
          · subst hkv
            rw [List.any_cons, hcbv]
            simp only [Bool.true_or, if_pos]
            apply ih2
            simp [hk, alLookup_insert_self]
          · rw [List.any_cons, hcbk k hkv]
            simp only [Bool.false_or]
            apply ih3
            cases halv : (alLookup rm v).isNone with
            | true => simp only [halv, if_pos]
                      rw [alLookup_insert_ne rm _ (fun he => hkv he.symm)]
                      exact hk
            | false => simpa [halv] using hk
        · rw [ih4]
          cases halv : alLookup rm v with
          | none =>
            simp only [halv, Option.isNone_none, if_pos]
            rw [rmSum_insert_none rm v _ halv]
            simp
          | some e0 => simp [halv]
        · intro hnd
          apply ih5
          cases halv : alLookup rm v with
          | none =>
            simp only [halv, Option.isNone_none, if_pos]
            rw [alKeys_insert_of_none rm v _ halv]
            have hvm : v ∉ alKeys rm := (alLookup_eq_none_iff rm v).mp halv
            simp [List.nodup_append, hnd, hvm]
          | some e0 => simpa [halv] using hnd

theorem crPhase2_cons_none (b : Bounty) (u : Nat) (t : List String)
    (rm : RewardsMap) (s : String) (hv : alLookup b.checked s = none) :
    crPhase2 b u (s :: t) rm = none := by
  simp [crPhase2, hv]

theorem crPhase2_cons_skip (b : Bounty) (u : Nat) (t : List String)
    (rm : RewardsMap) (s : String)
    (hv : alLookup b.checked s = some (-1)) :
    crPhase2 b u (s :: t) rm = crPhase2 b u t rm := by
  simp [crPhase2, hv]

theorem crPhase2_cons_miss (b : Bounty) (u : Nat) (t : List String)
    (rm : RewardsMap) (s : String) (v : Int)
    (hv : alLookup b.checked s = some v) (hv1 : v ≠ -1)
    (he : alLookup rm v = none) : crPhase2 b u (s :: t) rm = none := by
  simp [crPhase2, hv, hv1, he]

theorem crPhase2_cons_step (b : Bounty) (u : Nat) (t : List String)
    (rm : RewardsMap) (s : String) (v : Int) (e : RewardEntry)
    (hv : alLookup b.checked s = some v) (hv1 : v ≠ -1)
    (he : alLookup rm v = some e) :
    crPhase2 b u (s :: t) rm =
      crPhase2 b u t (alInsert rm v
        (if b.answer = s then
          { reward := e.reward + bountyShare b * ((u : Int) + 1),
            checked := e.checked + 1, won := true }
        else
          { reward := e.reward + bountyShare b,
            checked := e.checked + 1, won := e.won })) := by
  simp [crPhase2, hv, hv1, he]

theorem crPhase2_ok (b : Bounty) (u : Nat) (l : List String) :
    ∀ {rm rm2 : RewardsMap}, crPhase2 b u l rm = some rm2 →
    (∀ k, alLookup rm2 k = (alLookup rm k).map (fun e =>
      (⟨e.reward + bountyShare b * wsum b u k l,
        e.checked + l.countP (fun s => checkedBy b s k),
        e.won || l.any (fun s => checkedBy b s k && (b.answer == s))⟩ :
          RewardEntry))) ∧
    rmSum rm2 = rmSum rm + bountyShare b * wtotal b u l ∧
    alKeys rm2 = alKeys rm := by
  induction l with
  | nil =>
    intro rm rm2 h
    simp [crPhase2] at h
    subst h
    simp [wsum, wtotal]
  | cons s t ih =>
    intro rm rm2 h
    cases hv : alLookup b.checked s with
    | none => rw [crPhase2_cons_none b u t rm s hv] at h; simp at h
    | some v =>
      by_cases hv1 : v = -1
      · subst hv1
        rw [crPhase2_cons_skip b u t rm s hv] at h
        obtain ⟨ih1, ih2, ih3⟩ := ih h
        have hcb : ∀ k, checkedBy b s k = false := by
          intro k
          rw [checkedBy_eq b s k hv]
          simp
        have hsys : sysChk b s = false := by
          rw [sysChk_eq b s hv]
          simp
        refine ⟨?_, ?_, ih3⟩
        · intro k
          rw [ih1 k]
          simp [wsum, hcb, List.countP_cons, hsys, List.any_cons]
        · rw [ih2]
          simp [wtotal, hsys]
      · have hcbv : checkedBy b s v = true := by
          rw [checkedBy_eq b s v hv]
          simp [hv1]
        have hcbk : ∀ k, k ≠ v → checkedBy b s k = false := by
          intro k hk
          rw [checkedBy_eq b s k hv]
          simp
          intro _
          exact fun hh => absurd hh.symm hk
        have hsys : sysChk b s = true := by
          rw [sysChk_eq b s hv]
          simp [hv1]
        cases he : alLookup rm v with
        | none => rw [crPhase2_cons_miss b u t rm s v hv hv1 he] at h
                  simp at h
        | some e =>
          rw [crPhase2_cons_step b u t rm s v e hv hv1 he] at h
          obtain ⟨ih1, ih2, ih3⟩ := ih h
          refine ⟨?_, ?_, ?_⟩
          · intro k
            rw [ih1 k]
            by_cases hkv : k = v
            · subst hkv
              rw [alLookup_insert_self, he]
              simp only [Option.map]
              by_cases hans : b.answer = s
              · rw [if_pos hans]
                have h2 : wsum b u k (s :: t) = wContrib b u s + wsum b u k t := by
                  simp [wsum, hcbv]
                have h3 : (s :: t).countP (fun x => checkedBy b x k) =
                    t.countP (fun x => checkedBy b x k) + 1 := by
                  simp [List.countP_cons, hcbv]
                have h4 : (s :: t).any (fun x => checkedBy b x k && (b.answer == x)) = true := by
                  simp [List.any_cons, hcbv, hans]
                rw [h2, h3, h4]
                simp [wContrib, hans]
                constructor <;> ring
              · rw [if_neg hans]
                have h2 : wsum b u k (s :: t) = 1 + wsum b u k t := by
                  simp [wsum, hcbv, wContrib, hans]
                have h3 : (s :: t).countP (fun x => checkedBy b x k) =
                    t.countP (fun x => checkedBy b x k) + 1 := by
                  simp [List.countP_cons, hcbv]
                have h4 : (s :: t).any (fun x => checkedBy b x k && (b.answer == x)) =
                    t.any (fun x => checkedBy b x k && (b.answer == x)) := by
                  have : (b.answer == s) = false := by
                    simp [hans]
                  simp [List.any_cons, this]
                rw [h2, h3, h4]
                simp
                constructor <;> ring
            · rw [alLookup_insert_ne rm _ (fun hh => hkv hh.symm)]
              have h2 : wsum b u k (s :: t) = wsum b u k t := by
                simp [wsum, hcbk k hkv]
              have h3 : (s :: t).countP (fun x => checkedBy b x k) =
                  t.countP (fun x => checkedBy b x k) := by
                simp [List.countP_cons, hcbk k hkv]
              have h4 : (s :: t).any (fun x => checkedBy b x k && (b.answer == x)) =
                  t.any (fun x => checkedBy b x k && (b.answer == x)) := by
                simp [List.any_cons, hcbk k hkv]
              rw [h2, h3, h4]
          · rw [ih2, rmSum_insert_some rm v e _ he]
            have h2 : wtotal b u (s :: t) = wContrib b u s + wtotal b u t := by
              simp [wtotal, hsys]
            rw [h2]
            by_cases hans : b.answer = s
            · simp [if_pos hans, wContrib, hans]
              ring
            · simp [if_neg hans, wContrib, hans]
              ring
          · rw [ih3, alKeys_insert_of_mem rm v _ (by simp [he])]

theorem calcRewards_ok {b : Bounty} {rm : RewardsMap}
    (h : b.calcRewards = some rm) :
    (∀ k, alLookup rm k =
      if b.route.any (fun s => checkedBy b s k) then
        some (⟨bountyShare b * wsum b (uncheckedCount b) k b.route,
               b.route.countP (fun s => checkedBy b s k),
               b.route.any (fun s => checkedBy b s k && (b.answer == s))⟩ :
                 RewardEntry)
      else none) ∧
    rmSum rm = bountyShare b * wtotal b (uncheckedCount b) b.route ∧
    (alKeys rm).Nodup := by
  unfold Bounty.calcRewards at h
  cases h1 : crPhase1 b b.route 0 [] with
  | none => rw [h1] at h; simp at h
  | some p =>
    obtain ⟨c, rm1⟩ := p
    rw [h1] at h
    simp only [Option.bind_eq_bind, Option.some_bind] at h
    obtain ⟨p1cnt, p1some, p1none, p1sum, p1nd⟩ := crPhase1_ok b b.route h1
    have hc : c = checkedCount b := by
      rw [p1cnt]
      simp [checkedCount]
    rw [hc] at h
    obtain ⟨p2look, p2sum, p2keys⟩ := crPhase2_ok b (uncheckedCount b)
      b.route (show crPhase2 b (uncheckedCount b) b.route rm1 = some rm
        from h)
    refine ⟨?_, ?_, ?_⟩
    · intro k
      rw [p2look k, p1none k (by simp [alLookup])]
      by_cases hany : b.route.any (fun s => checkedBy b s k) = true
      · simp [hany]
      · simp [hany]
    · rw [p2sum, p1sum]
      simp [rmSum]
    · rw [p2keys]
      exact p1nd (by simp [alKeys])

theorem wtotal_eq (b : Bounty) (u : Nat) (l : List String) :
    wtotal b u l = (l.countP (sysChk b) : Int) +
      (u : Int) * (l.countP (fun s => sysChk b s && (b.answer == s)) : Int) := by
  induction l with
  | nil => simp [wtotal]
  | cons s t ih =>
    simp only [wtotal, List.countP_cons, ih]
    cases hs : sysChk b s with
    | false =>
      have h2 : (sysChk b s && (b.answer == s)) = false := by simp [hs]
      simp [hs, h2]
    | true =>
      by_cases hans : b.answer = s
      · have h2 : (sysChk b s && (b.answer == s)) = true := by simp [hs, hans]
        simp [hs, h2, wContrib, hans]
        ring
      · have h2 : (sysChk b s && (b.answer == s)) = false := by simp [hans]
        simp [hs, h2, wContrib, hans]
        ring

theorem countP_checked_answer_le (b : Bounty) :
    b.route.countP (fun s => sysChk b s && (b.answer == s)) ≤
      b.route.count b.answer := by
  have h1 : b.route.countP (fun s => sysChk b s && (b.answer == s)) ≤
      b.route.countP (fun s => b.answer == s) := by
    apply List.countP_mono_left
    intro s _ hs
    exact (Bool.and_elim_right hs)
  refine h1.trans ?_
  have h2 : b.route.countP (fun s => b.answer == s) =
      b.route.countP (fun s => s == b.answer) := by
    apply List.countP_congr
    intro s _
    by_cases h : b.answer = s
    · simp [h]
    · simp [h, Ne.symm h]
  rw [h2]
  rfl

/-! ### Claim C4: the reward distribution formula. -/

/-- C4: For every Bounty whose calcRewards call succeeds, each entry of the
returned mapping records, for its contributor k: checked = the number of
route occurrences k checked; reward = the per-system share
int(reward / routeLength) times the number of shares k earned, where a
checked non-answer occurrence is one share and a checked answer occurrence
is uncheckedCount + 1 shares instead of one; won = whether k checked the
answer. In particular, on the worked example route A B C D, answer C,
reward 40, X = 1 checked A and Y = 2 checked C, the result is exactly
X: reward 10, checked 1, won false and Y: reward 30, checked 1, won true.
(For the nonnegative rewards every generated bounty carries, the truncated
share equals floor(reward / routeLength).) -/
theorem calcRewards_distribution :
    (∀ (b : Bounty) (rm : RewardsMap), b.calcRewards = some rm →
      ∀ (k : Int) (e : RewardEntry), alLookup rm k = some e →
        e.checked = b.route.countP (fun s => checkedBy b s k) ∧
        e.reward = bountyShare b * wsum b (uncheckedCount b) k b.route ∧
        e.won = b.route.any (fun s => checkedBy b s k && (b.answer == s))) ∧
    bEx.calcRewards = some [(1, ⟨10, 1, false⟩), (2, ⟨30, 1, true⟩)] := by
  constructor
  · intro b rm h k e hke
    obtain ⟨char, _, _⟩ := calcRewards_ok h
    have h2 := char k
    rw [hke] at h2
    by_cases hany : b.route.any (fun s => checkedBy b s k) = true
    · rw [if_pos hany] at h2
      obtain ⟨rfl⟩ := Option.some.inj h2
      exact ⟨rfl, rfl, rfl⟩
    · rw [if_neg hany] at h2
      exact absurd h2 (by simp)
  · decide

/-- Witness for C4, instantiating the distribution formula on the worked
example at contributor 2, the answer finder. -/
theorem calcRewards_distribution_witness :
    (⟨30, 1, true⟩ : RewardEntry).checked =
        bEx.route.countP (fun s => checkedBy bEx s 2) ∧
    (⟨30, 1, true⟩ : RewardEntry).reward =
        bountyShare bEx * wsum bEx (uncheckedCount bEx) 2 bEx.route ∧
    (⟨30, 1, true⟩ : RewardEntry).won =
        bEx.route.any (fun s => checkedBy bEx s 2 && (bEx.answer == s)) :=
  calcRewards_distribution.1 bEx
    [(1, ⟨10, 1, false⟩), (2, ⟨30, 1, true⟩)] (by decide) 2
    ⟨30, 1, true⟩ (by decide)

/-! ### Claim C5: credit conservation. -/

/-- Counterexample to C5 as stated: on the bounty bDup, whose route lists
the answer A twice, the single contributor 5 checked both occurrences of
the answer while B stayed unchecked, and calcRewards hands out
2 * int(40 / 3) * (1 + 1) = 52 credits, exceeding the reward pool 40, even
though the route is nonempty and the reward is nonnegative. -/
theorem calcRewards_conservation_counterexample :
    bDup.calcRewards = some [(5, ⟨52, 2, true⟩)] ∧
    rmSum [(5, (⟨52, 2, true⟩ : RewardEntry))] = 52 ∧
    bDup.reward = 40 ∧ bDup.route ≠ [] ∧ 0 ≤ bDup.reward ∧
    ¬(52 : Int) ≤ bDup.reward := by
  refine ⟨by decide, by decide, by decide, by decide, by decide, by decide⟩

/-- C5 amended: for every Bounty with nonempty route, nonnegative reward
and an answer that occurs at most once on the route (every route produced
by the route planner lists each system once), the credits calcRewards
hands out total at most the reward pool, and no contributor appears in the
result without having checked at least one route occurrence. The
counterexample forces the at-most-once hypothesis: a route listing the
answer twice pays the answer bonus twice and can overdraw the pool. -/
theorem calcRewards_conservation_amended :
    ∀ (b : Bounty) (rm : RewardsMap), b.calcRewards = some rm →
      b.route ≠ [] → 0 ≤ b.reward → b.route.count b.answer ≤ 1 →
      rmSum rm ≤ b.reward ∧
      (∀ p ∈ rm, ∃ s ∈ b.route, checkedBy b s p.1 = true) := by
  intro b rm h hne hr hans
  obtain ⟨char, hsum, _⟩ := calcRewards_ok h
  constructor
  · rw [hsum, wtotal_eq]
    have hclen : checkedCount b ≤ b.route.length := List.countP_le_length _
    have hca : b.route.countP (fun s => sysChk b s && (b.answer == s)) ≤ 1 :=
      (countP_checked_answer_le b).trans hans
    have hlen0 : 0 < b.route.length := List.length_pos.mpr hne
    have hshare : 0 ≤ bountyShare b :=
      Int.tdiv_nonneg hr (by positivity)
    have hwt : (checkedCount b : Int) + (uncheckedCount b : Int) *
        (b.route.countP (fun s => sysChk b s && (b.answer == s)) : Int) ≤
        (b.route.length : Int) := by
      have h1 : (uncheckedCount b : Int) *
          (b.route.countP (fun s => sysChk b s && (b.answer == s)) : Int) ≤
          (uncheckedCount b : Int) * 1 := by
        apply mul_le_mul_of_nonneg_left _ (by positivity)
        exact_mod_cast hca
      have h2 : (checkedCount b : Int) + (uncheckedCount b : Int) =
          (b.route.length : Int) := by
        have : checkedCount b + uncheckedCount b = b.route.length := by
          simp only [uncheckedCount]
          omega
        exact_mod_cast this
      omega
    calc bountyShare b * ((checkedCount b : Int) + (uncheckedCount b : Int) *
          (b.route.countP (fun s => sysChk b s && (b.answer == s)) : Int))
        ≤ bountyShare b * (b.route.length : Int) :=
          mul_le_mul_of_nonneg_left hwt hshare
      _ ≤ b.reward := by
          rw [bountyShare, Int.tdiv_eq_ediv hr (by positivity)]
          exact Int.ediv_mul_le b.reward (by positivity)
  · intro p hp
    have hk : (alLookup rm p.1).isSome := by
      rw [alLookup_isSome_iff_mem]
      exact List.mem_map_of_mem Prod.fst hp
    rw [char p.1] at hk
    by_cases hany : b.route.any (fun s => checkedBy b s p.1) = true
    · obtain ⟨s, hs, hcb⟩ := List.any_eq_true.mp hany
      exact ⟨s, hs, hcb⟩
    · rw [if_neg hany] at hk
      simp at hk

/-- Witness for C5 amended, on the worked example bounty. -/
theorem calcRewards_conservation_witness :
    rmSum [(1, (⟨10, 1, false⟩ : RewardEntry)), (2, ⟨30, 1, true⟩)] ≤
        bEx.reward ∧
    (∀ p ∈ [(1, (⟨10, 1, false⟩ : RewardEntry)), (2, ⟨30, 1, true⟩)],
      ∃ s ∈ bEx.route, checkedBy bEx s p.1 = true) :=
  calcRewards_conservation_amended bEx
    [(1, ⟨10, 1, false⟩), (2, ⟨30, 1, true⟩)] (by decide) (by decide)
    (by decide) (by decide)

/-! ### Claim C9: the winner entry. -/

/-- C9: in a successful calcRewards result of a bounty whose answer lies on
its route, at most one entry carries won = true; a won entry exists exactly
when the answer system has been checked; and any won entry belongs to the
contributor the checked dict records for the answer system. -/
theorem calcRewards_unique_winner :
    ∀ (b : Bounty) (rm : RewardsMap), b.calcRewards = some rm →
      b.answer ∈ b.route →
      (∀ p ∈ rm, p.2.won = true → ∀ q ∈ rm, q.2.won = true → p = q) ∧
      ((∃ p ∈ rm, p.2.won = true) ↔ b.systemChecked b.answer = some true) ∧
      (∀ p ∈ rm, p.2.won = true → alLookup b.checked b.answer = some p.1) := by
  intro b rm h hmem
  obtain ⟨char, _, hnd⟩ := calcRewards_ok h
  have hwinner : ∀ p ∈ rm, p.2.won = true →
      alLookup b.checked b.answer = some p.1 ∧ (p.1 != -1) = true := by
    intro p hp hw
    have hl := alLookup_of_mem_nodup hnd hp
    rw [char p.1] at hl
    by_cases hany : b.route.any (fun s => checkedBy b s p.1) = true
    · rw [if_pos hany] at hl
      have he : (⟨bountyShare b * wsum b (uncheckedCount b) p.1 b.route,
          b.route.countP (fun s => checkedBy b s p.1),
          b.route.any (fun s => checkedBy b s p.1 && (b.answer == s))⟩ :
            RewardEntry) = p.2 := Option.some.inj hl
      have hw2 : b.route.any
          (fun s => checkedBy b s p.1 && (b.answer == s)) = true := by
        rw [← he] at hw
        exact hw
      obtain ⟨s, _, hcb⟩ := List.any_eq_true.mp hw2
      rw [Bool.and_eq_true] at hcb
      obtain ⟨hcb1, hcb2⟩ := hcb
      have hans : b.answer = s := by
        exact beq_iff_eq.mp hcb2
      subst hans
      unfold checkedBy at hcb1
      cases hv : alLookup b.checked b.answer with
      | none => rw [hv] at hcb1; simp at hcb1
      | some v =>
        rw [hv] at hcb1
        rw [Bool.and_eq_true] at hcb1
        obtain ⟨hv1, hv2⟩ := hcb1
        have hvp : v = p.1 := by exact_mod_cast beq_iff_eq.mp hv2
        subst hvp
        exact ⟨rfl, hv1⟩
    · rw [if_neg hany] at hl
      exact absurd hl (by simp)
  refine ⟨?_, ⟨?_, ?_⟩, fun p hp hw => (hwinner p hp hw).1⟩
  · intro p hp hpw q hq hqw
    have h1 := (hwinner p hp hpw).1
    have h2 := (hwinner q hq hqw).1
    rw [h1] at h2
    exact eq_of_mem_nodup_fst hnd hp hq (Option.some.inj h2)
  · rintro ⟨p, hp, hw⟩
    obtain ⟨hl, hne⟩ := hwinner p hp hw
    simp [Bounty.systemChecked, hl, hne]
  · intro hsys
    simp only [Bounty.systemChecked] at hsys
    cases hv : alLookup b.checked b.answer with
    | none => rw [hv] at hsys; simp at hsys
    | some v =>
      rw [hv] at hsys
      simp only [Option.map] at hsys
      have hvne : (v != -1) = true := Option.some.inj hsys
      have hcb : checkedBy b b.answer v = true := by
        unfold checkedBy
        rw [hv]
        simp [hvne]
      have hany : b.route.any (fun s => checkedBy b s v) = true :=
        List.any_eq_true.mpr ⟨b.answer, hmem, hcb⟩
      have hl := char v
      rw [if_pos hany] at hl
      exact ⟨(v, ⟨bountyShare b * wsum b (uncheckedCount b) v b.route,
               b.route.countP (fun s => checkedBy b s v),
               b.route.any (fun s => checkedBy b s v && (b.answer == s))⟩),
             mem_of_alLookup hl,
             List.any_eq_true.mpr ⟨b.answer, hmem, by simp [hcb]⟩⟩

/-- Witness for C9 on the worked example: a winner entry exists there, and
it is contributor 2, the one recorded for the answer C. -/
theorem calcRewards_unique_winner_witness :
    ((∃ p ∈ ([(1, ⟨10, 1, false⟩), (2, ⟨30, 1, true⟩)] : RewardsMap),
        p.2.won = true) ↔ bEx.systemChecked bEx.answer = some true) ∧
    (∀ p ∈ ([(1, ⟨10, 1, false⟩), (2, ⟨30, 1, true⟩)] : RewardsMap),
        p.2.won = true → alLookup bEx.checked bEx.answer = some p.1) :=
  ⟨(calcRewards_unique_winner bEx [(1, ⟨10, 1, false⟩), (2, ⟨30, 1, true⟩)]
      (by decide) (by decide)).2.1,
   (calcRewards_unique_winner bEx [(1, ⟨10, 1, false⟩), (2, ⟨30, 1, true⟩)]
      (by decide) (by decide)).2.2⟩

/-! ### Claim C1: the check contract. -/

/-- Counterexample to C1 as stated: on the fresh bounty bC1 the call
check A with userID -1, the unchecked sentinel, returns 2 and records -1,
leaving the state unchanged; a later call check A with userID 7 then
returns 2 again and overwrites the recorded checker of A with 7, so the
first checker of A was not recorded permanently. -/
theorem check_overwrite_counterexample :
    bC1.check "A" (-1) = some (2, bC1) ∧
    bC1.check "A" 7 =
      some (2, { bC1 with checked := [("A", 7), ("B", -1)] }) := by
  constructor <;> decide

/-- C1 amended: check on a system off the route returns 0 and changes
nothing; on an already checked route system it returns 1 and changes
nothing; on an unchecked route system it records the caller in the checked
dict and returns 3 when the system is the answer, 2 otherwise. The first
checker of a location is recorded permanently provided their userID is not
-1, the unchecked sentinel: a caller recording the sentinel value leaves
the location formally unchecked and a later caller overwrites it, which is
what the counterexample exhibits. -/
theorem check_semantics_amended :
    ∀ (b : Bounty) (s : String) (uid : Int),
      (s ∉ b.route → b.check s uid = some (0, b)) ∧
      (s ∈ b.route → b.systemChecked s = some true →
        b.check s uid = some (1, b)) ∧
      (s ∈ b.route → b.systemChecked s = some false →
        b.check s uid = some (if b.answer = s then 3 else 2,
          { b with checked := alInsert b.checked s uid })) ∧
      (s ∈ b.route → b.systemChecked s = some false → uid ≠ -1 →
        ∀ uid2 : Int,
          ({ b with checked := alInsert b.checked s uid } : Bounty).check s uid2
            = some (1, { b with checked := alInsert b.checked s uid })) := by
  intro b s uid
  refine ⟨?_, ?_, ?_, ?_⟩
  · intro h
    simp [Bounty.check, h]
  · intro h hsc
    simp [Bounty.check, h, hsc]
  · intro h hsc
    by_cases hans : b.answer = s
    · simp [Bounty.check, h, hsc, hans]
    · simp [Bounty.check, h, hsc, hans]
  · intro h hsc huid uid2
    have hl : alLookup (alInsert b.checked s uid) s = some uid :=
      alLookup_insert_self b.checked s uid
    have hsc2 : ({ b with checked := alInsert b.checked s uid } : Bounty).systemChecked s
        = some true := by
      simp [Bounty.systemChecked, hl, huid]
    simp [Bounty.check, h, hsc2]

/-- Witness for C1 amended on the fresh bounty bC1: checking the answer B
as contributor 9 returns 3 and records 9; any later check of B returns 1
and changes nothing. -/
theorem check_semantics_witness :
    bC1.check "B" 9 = some (if bC1.answer = "B" then 3 else 2,
      { bC1 with checked := alInsert bC1.checked "B" 9 }) ∧
    ({ bC1 with checked := alInsert bC1.checked "B" 9 } : Bounty).check "B" 4
      = some (1, { bC1 with checked := alInsert bC1.checked "B" 9 }) :=
  ⟨(check_semantics_amended bC1 "B" 9).2.2.1 (by decide) (by decide),
   (check_semantics_amended bC1 "B" 9).2.2.2 (by decide) (by decide)
     (by decide) 4⟩

/-! ### Claims C2 and C3: the inverted escape state. -/

/-- C2 is a code bug: isEscaped returns self.respawnTT is None, so a
freshly constructed bounty, which holds no respawn task, already reports
itself escaped, and a bounty holding an attached respawn task reports
itself not escaped. The claim (and the docstring of isEscaped) require
the opposite: escaped exactly when a task is attached. -/
theorem isEscaped_inverted_bug :
    (∀ (cfg : BountyConfig) (cf : String),
      (Bounty.fromConfig cfg cf).respawnTT = none ∧
      (Bounty.fromConfig cfg cf).isEscaped = true) ∧
    (∀ b : Bounty, b.isEscaped = true ↔ b.respawnTT = none) ∧
    bEsc.respawnTT = some 5 ∧ bEsc.isEscaped = false := by
  refine ⟨fun cfg cf => ⟨rfl, rfl⟩, fun b => ?_, rfl, rfl⟩
  simp [Bounty.isEscaped]

/-- C3 is a code bug: because the isEscaped test is inverted, escape on the
bounty bEsc, which already holds respawn task 5, succeeds and silently
replaces the attached task with the new one, while escape on a bounty with
no attached task raises ValueError. The claim (and the docstrings of
isEscaped and escape) require the opposite on both inputs. -/
theorem escape_precondition_bug :
    bEsc.escape 7 = some { bEsc with respawnTT := some 7 } ∧
    ({ bEsc with respawnTT := none } : Bounty).escape 3 = none := by
  constructor <;> decide

/-! ### Lemmas on the generate stages. -/

theorem except_bind_ok {ε α β : Type} {x : Except ε α} {f : α → Except ε β}
    {r : β} : (x >>= f) = .ok r ↔ ∃ a, x = .ok a ∧ f a = .ok r := by
  cases x with
  | error e =>
    simp only [Bind.bind, Except.bind]
    constructor
    · intro h
      exact absurd h (by simp)
    · rintro ⟨a, ha, _⟩
      exact absurd ha (by simp)
  | ok a =>
    simp only [Bind.bind, Except.bind]
    constructor
    · intro h
      exact ⟨a, rfl, h⟩
    · rintro ⟨a2, ha, hf⟩
      obtain rfl : a = a2 := Except.ok.inj ha
      exact hf

theorem generate_ok_elim {cfg0 : BountyConfig} {env : GenEnv} {db : BountyDB}
    {o : GenOracle} {ncr fkc fnd : Bool} {c2 : BountyConfig}
    (h : cfg0.generate env db o ncr fkc fnd = .ok c2) :
    ∃ fa na ic bi st en rt ans rwd,
      genCriminalStage cfg0 env db o ncr (!fnd) = .ok (fa, na, ic, bi) ∧
      genRouteStage (withCrim cfg0 fa na ic bi) env o = .ok (st, en, rt) ∧
      genAnswerStage (withRoute (withCrim cfg0 fa na ic bi) st en rt) env o
        = .ok ans ∧
      genRewardStage
        (withAnswer (withRoute (withCrim cfg0 fa na ic bi) st en rt) ans) env
        = .ok rwd ∧
      c2 = finishTimesChecked
        (withReward
          (withAnswer (withRoute (withCrim cfg0 fa na ic bi) st en rt) ans)
          rwd) o fkc := by
  simp only [BountyConfig.generate, except_bind_ok] at h
  obtain ⟨⟨fa, na, ic, bi⟩, h1, h⟩ := h
  obtain ⟨⟨st, en, rt⟩, h2, h⟩ := h
  obtain ⟨ans, h3, h⟩ := h
  obtain ⟨rwd, h4, h⟩ := h
  exact ⟨fa, na, ic, bi, st, en, rt, ans, rwd, h1, h2, h3, h4,
    (Except.ok.inj h).symm⟩

theorem genCriminalStage_skip {cfg : BountyConfig} {env : GenEnv}
    {db : BountyDB} {o : GenOracle} :
    genCriminalStage cfg env db o false false
      = .ok (cfg.faction, cfg.name, cfg.icon, cfg.builtIn) := by
  simp [genCriminalStage]

theorem genRouteStage_explicit {cfg : BountyConfig} {env : GenEnv}
    {o : GenOracle} (hne : cfg.route ≠ [])
    (hall : ∀ s ∈ cfg.route, s ∈ env.systems) :
    genRouteStage cfg env o = .ok (cfg.start, cfg.stop, cfg.route) := by
  unfold genRouteStage
  rw [if_neg hne, if_pos]
  rw [List.all_eq_true]
  intro s hs
  simpa using hall s hs

theorem genRouteStage_ne_nil {cfg : BountyConfig} {env : GenEnv}
    {o : GenOracle} {st en : String} {rt : List String}
    (haStar : ∀ a a2, env.aStar a a2 ≠ [])
    (h : genRouteStage cfg env o = .ok (st, en, rt)) : rt ≠ [] := by
  unfold genRouteStage at h
  by_cases hr : cfg.route = []
  · rw [if_pos hr] at h
    simp only [except_bind_ok] at h
    obtain ⟨st1, _, h⟩ := h
    obtain ⟨en1, _, h⟩ := h
    have h5 := Except.ok.inj h
    rw [Prod.mk.injEq, Prod.mk.injEq] at h5
    exact h5.2.2 ▸ haStar st1 en1
  · rw [if_neg hr] at h
    split at h
    · have h5 := Except.ok.inj h
      rw [Prod.mk.injEq, Prod.mk.injEq] at h5
      exact h5.2.2 ▸ hr
    · exact absurd h (by simp)

theorem genAnswerStage_explicit {cfg : BountyConfig} {env : GenEnv}
    {o : GenOracle} (hne : cfg.answer ≠ "")
    (hmem : cfg.answer ∈ env.systems) :
    genAnswerStage cfg env o = .ok cfg.answer := by
  unfold genAnswerStage
  rw [if_neg hne, if_neg (not_not_intro hmem)]

theorem genRewardStage_nonneg {cfg : BountyConfig} {env : GenEnv}
    (h : 0 ≤ cfg.reward) : genRewardStage cfg env = .ok cfg.reward := by
  unfold genRewardStage
  rw [if_neg (by omega), if_neg (by omega)]

theorem pyChoice_mem {l : List α} {i : Nat} {a : α}
    (h : pyChoice l i = some a) : a ∈ l := by
  unfold pyChoice at h
  exact List.getElem?_mem h

theorem map_pyTitle_fixed {l : List String} (h : ∀ s ∈ l, pyTitle s = s) :
    l.map pyTitle = l := by
  induction l with
  | nil => rfl
  | cons s t ih =>
    simp only [List.map_cons, h s (by simp)]
    rw [ih (fun x hx => h x (by simp [hx]))]

/-! ### Lemmas on the checked back-fill loop. -/

theorem genCheckedFold_cons (fkc : Bool) (st : String) (t : List String)
    (m : List (String × Int)) :
    genCheckedFold fkc (st :: t) m
      = genCheckedFold fkc t (genCheckedStep fkc m st) := rfl

theorem genCheckedFold_false_lookup (l : List String) :
    ∀ (m : List (String × Int)) (s : String),
    alLookup (genCheckedFold false l m) s =
      if s ∈ l then some (-1) else alLookup m s := by
  induction l with
  | nil => intro m s; simp [genCheckedFold]
  | cons st t ih =>
    intro m s
    rw [genCheckedFold_cons, ih]
    have hstep : genCheckedStep false m st = alInsert m st (-1) := by
      simp [genCheckedStep]
    rw [hstep]
    by_cases hst : s ∈ t
    · simp [hst]
    · by_cases hse : st = s
      · subst hse
        simp [hst, alLookup_insert_self]
      · rw [if_neg hst, alLookup_insert_ne m _ hse]
        have hns : ¬s ∈ st :: t := by
          simp [hst]
          exact fun hh => hse hh.symm
        rw [if_neg hns]

theorem genCheckedFold_true_value (l : List String) :
    ∀ (m : List (String × Int)) (s : String) (v : Int),
    alLookup m s = some v →
    alLookup (genCheckedFold true l m) s = some v := by
  induction l with
  | nil => intro m s v hv; exact hv
  | cons st t ih =>
    intro m s v hv
    rw [genCheckedFold_cons]
    apply ih
    have hm : ¬m = [] := by
      intro he
      rw [he] at hv
      simp [alLookup] at hv
    unfold genCheckedStep
    by_cases hse : st = s
    · subst hse
      rw [if_neg (by simp [hv, hm])]
      exact hv
    · split
      · rw [alLookup_insert_ne m _ hse]
        exact hv
      · exact hv

theorem genCheckedFold_backfill (l : List String) :
    ∀ (m : List (String × Int)) (s : String), s ∈ l →
    alLookup m s = none →
    alLookup (genCheckedFold true l m) s = some (-1) := by
  induction l with
  | nil => intro m s hs; simp at hs
  | cons st t ih =>
    intro m s hs hnone
    rw [genCheckedFold_cons]
    by_cases hse : st = s
    · subst hse
      have hstep : alLookup (genCheckedStep true m st) st = some (-1) := by
        unfold genCheckedStep
        rw [if_pos (by simp [hnone])]
        exact alLookup_insert_self m st (-1)
      exact genCheckedFold_true_value t _ st (-1) hstep
    · have hs2 : s ∈ t := by
        rcases List.mem_cons.mp hs with h | h
        · exact absurd h.symm hse
        · exact h
      apply ih _ s hs2
      unfold genCheckedStep
      split
      · rw [alLookup_insert_ne m _ hse]
        exact hnone
      · exact hnone

theorem genCheckedFold_covers (fkc : Bool) (l : List String)
    (m : List (String × Int)) (s : String) (hs : s ∈ l) :
    (alLookup (genCheckedFold fkc l m) s).isSome := by
  cases fkc with
  | false =>
    rw [genCheckedFold_false_lookup]
    simp [hs]
  | true =>
    cases hv : alLookup m s with
    | some v => simp [genCheckedFold_true_value l m s v hv]
    | none => simp [genCheckedFold_backfill l m s hs hv]

theorem genCheckedFold_true_noop (l : List String) :
    ∀ (m : List (String × Int)), (∀ s ∈ l, (alLookup m s).isSome) →
    genCheckedFold true l m = m := by
  induction l with
  | nil => intro m _; rfl
  | cons st t ih =>
    intro m hcov
    have hst := hcov st (by simp)
    have hm : ¬m = [] := by
      intro he
      rw [he] at hst
      simp [alLookup] at hst
    have hstep : genCheckedStep true m st = m := by
      unfold genCheckedStep
      rw [if_neg]
      simp [hm]
      rwa [← Option.not_isSome_iff_eq_none, not_not]
    rw [genCheckedFold_cons, hstep]
    exact ih m (fun s hs => hcov s (by simp [hs]))

/-! ### calcRewards never fails on a covered checked dict. -/

theorem crPhase1_isSome (b : Bounty) (l : List String) :
    ∀ (c : Nat) (rm : RewardsMap),
    (∀ s ∈ l, (alLookup b.checked s).isSome) →
    (crPhase1 b l c rm).isSome := by
  induction l with
  | nil => intro c rm _; simp [crPhase1]
  | cons s t ih =>
    intro c rm hcov
    cases hv : alLookup b.checked s with
    | none =>
      have := hcov s (by simp)
      rw [hv] at this
      simp at this
    | some v =>
      rw [crPhase1_cons_some b t c rm s v hv]
      by_cases hv1 : v = -1
      · rw [if_pos hv1]
        exact ih c rm (fun s2 hs2 => hcov s2 (by simp [hs2]))
      · rw [if_neg hv1]
        exact ih _ _ (fun s2 hs2 => hcov s2 (by simp [hs2]))

theorem crPhase2_isSome (b : Bounty) (u : Nat) (l : List String) :
    ∀ (rm : RewardsMap),
    (∀ s ∈ l, (alLookup b.checked s).isSome) →
    (∀ s ∈ l, ∀ v, alLookup b.checked s = some v → v ≠ -1 →
      (alLookup rm v).isSome) →
    (crPhase2 b u l rm).isSome := by
  induction l with
  | nil => intro rm _ _; simp [crPhase2]
  | cons s t ih =>
    intro rm hcov hkeys
    cases hv : alLookup b.checked s with
    | none =>
      have := hcov s (by simp)
      rw [hv] at this
      simp at this
    | some v =>
      by_cases hv1 : v = -1
      · subst hv1
        rw [crPhase2_cons_skip b u t rm s hv]
        exact ih rm (fun s2 hs2 => hcov s2 (by simp [hs2]))
          (fun s2 hs2 => hkeys s2 (by simp [hs2]))
      · have hrmv := hkeys s (by simp) v hv hv1
        cases he : alLookup rm v with
        | none => rw [he] at hrmv; simp at hrmv
        | some e =>
          rw [crPhase2_cons_step b u t rm s v e hv hv1 he]
          apply ih
          · exact fun s2 hs2 => hcov s2 (by simp [hs2])
          · intro s2 hs2 v2 hv2 hv21
            by_cases hvv : v2 = v
            · subst hvv
              simp [alLookup_insert_self]
            · rw [alLookup_insert_ne _ _ (fun hh => hvv hh.symm)]
              exact hkeys s2 (by simp [hs2]) v2 hv2 hv21

theorem calcRewards_isSome (b : Bounty)
    (hcov : ∀ s ∈ b.route, (alLookup b.checked s).isSome) :
    (b.calcRewards).isSome := by
  unfold Bounty.calcRewards
  have h1 := crPhase1_isSome b b.route 0 [] hcov
  cases hp : crPhase1 b b.route 0 [] with
  | none => rw [hp] at h1; simp at h1
  | some p =>
    obtain ⟨c, rm1⟩ := p
    obtain ⟨_, _, p1none, _, _⟩ := crPhase1_ok b b.route hp
    show (crPhase2 b (b.route.length - c) b.route rm1).isSome = true
    apply crPhase2_isSome b _ b.route rm1 hcov
    intro s hs v hv hv1
    have hany : b.route.any (fun s2 => checkedBy b s2 v) = true := by
      apply List.any_eq_true.mpr
      refine ⟨s, hs, ?_⟩
      rw [checkedBy_eq b s v hv]
      simp [hv1]
    rw [p1none v (by simp [alLookup]), if_pos hany]
    simp

/-! ### Claim C10: generate covers the checked dict. -/

/-- C10: after a successful generate, every route member is a key of the
checked dict, under every flag combination, including forceKeepChecked
with a partial pre-existing dict; consequently on a bounty built from the
generated config, systemChecked and check on any route member and
calcRewards never hit a missing key (never return the KeyError value
none). -/
theorem generate_checked_coverage :
    ∀ (cfg : BountyConfig) (env : GenEnv) (db : BountyDB) (o : GenOracle)
      (ncr fkc fnd : Bool) (c2 : BountyConfig) (cf : String),
      cfg.generate env db o ncr fkc fnd = .ok c2 →
      (∀ s ∈ c2.route, (alLookup c2.checked s).isSome) ∧
      (∀ s ∈ (Bounty.fromConfig c2 cf).route, ∀ uid : Int,
        ((Bounty.fromConfig c2 cf).systemChecked s).isSome ∧
        ((Bounty.fromConfig c2 cf).check s uid).isSome) ∧
      ((Bounty.fromConfig c2 cf).calcRewards).isSome := by
  intro cfg env db o ncr fkc fnd c2 cf h
  obtain ⟨fa, na, ic, bi, st, en, rt, ans, rwd, h1, h2, h3, h4, hc2⟩ :=
    generate_ok_elim h
  have hcov : ∀ s ∈ c2.route, (alLookup c2.checked s).isSome := by
    intro s hs
    rw [hc2]
    exact genCheckedFold_covers fkc _ _ s (by rw [hc2] at hs; exact hs)
  have hcovb : ∀ s ∈ (Bounty.fromConfig c2 cf).route,
      (alLookup (Bounty.fromConfig c2 cf).checked s).isSome := hcov
  refine ⟨hcov, ?_, calcRewards_isSome _ hcovb⟩
  intro s hs uid
  have hsome := hcovb s hs
  constructor
  · simpa [Bounty.systemChecked] using hsome
  · cases hbb : (Bounty.fromConfig c2 cf).systemChecked s with
    | none =>
      cases hx : alLookup (Bounty.fromConfig c2 cf).checked s with
      | none => rw [hx] at hsome; simp at hsome
      | some v => rw [Bounty.systemChecked, hx] at hbb; simp at hbb
    | some bb =>
      cases bb with
      | true => simp [Bounty.check, hs, hbb]
      | false =>
        by_cases hans : (Bounty.fromConfig c2 cf).answer = s
        · simp [Bounty.check, hs, hbb, hans]
        · simp [Bounty.check, hs, hbb, hans]

/-- Witness for C10 on the concrete successful generate run from
cfgAnsOff. -/
theorem generate_checked_coverage_witness :
    (∀ s ∈ cfgAnsOffGen.route, (alLookup cfgAnsOffGen.checked s).isSome) ∧
    ((Bounty.fromConfig cfgAnsOffGen "fed").calcRewards).isSome :=
  ⟨(generate_checked_coverage cfgAnsOff envX dbX oX true false false
      cfgAnsOffGen "fed" rfl).1,
   (generate_checked_coverage cfgAnsOff envX dbX oX true false false
      cfgAnsOffGen "fed" rfl).2.2⟩

/-! ### Claim C6: the generated-config invariants. -/

/-- Counterexample to C6 as stated, in three concrete successful generate
runs: an explicit answer that is a known system but off the route is
accepted (answer not in route); under forceKeepChecked a stale checked
key off the route survives (checked keys exceed the route set); explicit
timestamps are accepted unvalidated (endTime not after issueTime). -/
theorem generate_invariants_counterexample :
    cfgAnsOff.generate envX dbX oX true false false = .ok cfgAnsOffGen ∧
    cfgAnsOffGen.answer ∉ cfgAnsOffGen.route ∧
    cfgStale.generate envX dbX oX true true false = .ok cfgStaleGen ∧
    "Zeta" ∈ alKeys cfgStaleGen.checked ∧ "Zeta" ∉ cfgStaleGen.route ∧
    cfgLate.generate envX dbX oX true false false = .ok cfgLateGen ∧
    ¬cfgLateGen.issueTime < cfgLateGen.endTime := by
  refine ⟨rfl, by decide, rfl, by decide, by decide, rfl, by decide⟩

/-- C6 amended: for every config on which generate succeeds (assuming the
route planner returns nonempty paths, inclusive of both endpoints as it
specifies): the answer is a route member whenever the answer was not
explicitly supplied (an explicit answer is only validated to be a known
system name); the reward is nonnegative; endTime is after issueTime
whenever endTime was not explicitly supplied (explicit timestamps are not
validated); every route member is a checked key; and the checked keys are
exactly the route members when forceKeepChecked is false (the reload path
may keep stale extra keys). -/
theorem generate_invariants_amended :
    ∀ (cfg : BountyConfig) (env : GenEnv) (db : BountyDB) (o : GenOracle)
      (ncr fkc fnd : Bool) (c2 : BountyConfig),
      cfg.generate env db o ncr fkc fnd = .ok c2 →
      (∀ a a2, env.aStar a a2 ≠ []) →
      (cfg.answer = "" → c2.answer ∈ c2.route) ∧
      0 ≤ c2.reward ∧
      (cfg.endTime = -1 → c2.issueTime < c2.endTime) ∧
      (∀ s ∈ c2.route, s ∈ alKeys c2.checked) ∧
      (fkc = false → ∀ s, s ∈ alKeys c2.checked ↔ s ∈ c2.route) := by
  intro cfg env db o ncr fkc fnd c2 h haStar
  obtain ⟨fa, na, ic, bi, st, en, rt, ans, rwd, h1, h2, h3, h4, hc2⟩ :=
    generate_ok_elim h
  have hrtne : rt ≠ [] := genRouteStage_ne_nil haStar h2
  have hroute : c2.route = rt := by rw [hc2]; rfl
  have hanswer : c2.answer = ans := by rw [hc2]; rfl
  have hreward : c2.reward = rwd := by rw [hc2]; rfl
  refine ⟨?_, ?_, ?_, ?_, ?_⟩
  · intro hblank
    rw [hanswer, hroute]
    unfold genAnswerStage at h3
    rw [if_pos (show (withRoute (withCrim cfg fa na ic bi) st en rt).answer
      = "" from hblank)] at h3
    cases hpc : pyChoice rt o.answerIdx with
    | none =>
      rw [show (withRoute (withCrim cfg fa na ic bi) st en rt).route = rt
        from rfl, hpc] at h3
      exact absurd h3 (by simp)
    | some a =>
      rw [show (withRoute (withCrim cfg fa na ic bi) st en rt).route = rt
        from rfl, hpc] at h3
      obtain rfl : a = ans := Except.ok.inj h3
      exact pyChoice_mem hpc
  · rw [hreward]
    unfold genRewardStage at h4
    split at h4
    · obtain rfl := Except.ok.inj h4
      positivity
    · split at h4
      · exact absurd h4 (by simp)
      · obtain rfl := Except.ok.inj h4
        omega
  · intro hend
    have hit : c2.issueTime =
        (if cfg.issueTime = -1 then o.nowTS else cfg.issueTime) := by
      rw [hc2]
      rfl
    have het : c2.endTime =
        (if cfg.issueTime = -1 then o.nowTS else cfg.issueTime)
          + 86400 * (rt.length : Int) := by
      rw [hc2]
      show (if cfg.endTime = -1 then
          (if cfg.issueTime = -1 then o.nowTS else cfg.issueTime)
            + 86400 * (rt.length : Int)
        else cfg.endTime) = _
      rw [if_pos hend]
    rw [hit, het]
    have hlen := List.length_pos.mpr hrtne
    have h86 : (0 : Int) < 86400 * (rt.length : Int) := by
      have : (0 : Int) < (rt.length : Int) := by exact_mod_cast hlen
      omega
    omega
  · intro s hs
    rw [← alLookup_isSome_iff_mem]
    rw [hc2]
    exact genCheckedFold_covers fkc _ _ s (by rw [hroute] at hs; exact hs)
  · intro hfkc s
    subst hfkc
    rw [← alLookup_isSome_iff_mem, hroute, hc2]
    show (alLookup (genCheckedFold false rt []) s).isSome = true ↔ s ∈ rt
    rw [genCheckedFold_false_lookup]
    by_cases hsr : s ∈ rt
    · simp [hsr]
    · simp [hsr, alLookup]

/-- Witness for C6 amended, on the concrete run from cfgNegOne, whose
answer Alpha was explicitly supplied on the route and whose endTime was
explicit. -/
theorem generate_invariants_witness :
    0 ≤ cfgNegOneGen.reward ∧
    (∀ s ∈ cfgNegOneGen.route, s ∈ alKeys cfgNegOneGen.checked) ∧
    (∀ s, s ∈ alKeys cfgNegOneGen.checked ↔ s ∈ cfgNegOneGen.route) :=
  ⟨(generate_invariants_amended cfgNegOne envX dbX oX true false false
      cfgNegOneGen rfl (fun _ _ => by simp [envX])).2.1,
   (generate_invariants_amended cfgNegOne envX dbX oX true false false
      cfgNegOneGen rfl (fun _ _ => by simp [envX])).2.2.2.1,
   (generate_invariants_amended cfgNegOne envX dbX oX true false false
      cfgNegOneGen rfl (fun _ _ => by simp [envX])).2.2.2.2 rfl⟩

/-! ### Claim C8: the reward validation. -/

/-- Counterexample to C8 as stated: cfgNegOne carries the explicit
negative reward -1, yet generate succeeds and silently replaces the value
with the default routeLength times ratio = 20, because -1 doubles as the
reward-not-supplied sentinel. -/
theorem generate_reward_counterexample :
    cfgNegOne.reward = -1 ∧ cfgNegOne.reward < 0 ∧
    cfgNegOne.generate envX dbX oX true false false = .ok cfgNegOneGen ∧
    cfgNegOneGen.reward = 20 := by
  refine ⟨by decide, by decide, rfl, by decide⟩

/-- C8 amended: generate rejects every explicit reward below -1 (the run
never returns a config; when control reaches the reward step the error is
the ValueError of the reward validation), and a config whose reward is
exactly -1, the reward-not-supplied sentinel, receives the default
int(routeLength * fixedRatio) instead - so an explicit reward of exactly
-1 is indistinguishable from an unsupplied one and is silently replaced
rather than rejected, which is what the counterexample exhibits. -/
theorem generate_reward_amended :
    ∀ (cfg : BountyConfig) (env : GenEnv) (db : BountyDB) (o : GenOracle)
      (ncr fkc fnd : Bool),
      (cfg.reward < -1 →
        (∀ c2, cfg.generate env db o ncr fkc fnd ≠ .ok c2) ∧
        (∀ cfg3 : BountyConfig, cfg3.reward = cfg.reward →
          genRewardStage cfg3 env = .error .valueFailure)) ∧
      (cfg.reward = -1 → ∀ c2, cfg.generate env db o ncr fkc fnd = .ok c2 →
        c2.reward = ((c2.route.length * env.bPointsToCreditsRatio : Nat) :
          Int)) := by
  intro cfg env db o ncr fkc fnd
  constructor
  · intro hneg
    constructor
    · intro c2 h
      obtain ⟨fa, na, ic, bi, st, en, rt, ans, rwd, _, _, _, h4, _⟩ :=
        generate_ok_elim h
      unfold genRewardStage at h4
      rw [if_neg (by
        show ¬(withAnswer (withRoute (withCrim cfg fa na ic bi) st en rt)
          ans).reward = -1
        show ¬cfg.reward = -1
        omega)] at h4
      rw [if_pos (show (withAnswer (withRoute (withCrim cfg fa na ic bi)
        st en rt) ans).reward < 0 from by show cfg.reward < 0; omega)] at h4
      exact absurd h4 (by simp)
    · intro cfg3 he
      unfold genRewardStage
      rw [if_neg (by omega), if_pos (by omega)]
  · intro hsent c2 h
    obtain ⟨fa, na, ic, bi, st, en, rt, ans, rwd, _, _, _, h4, hc2⟩ :=
      generate_ok_elim h
    unfold genRewardStage at h4
    rw [if_pos (show (withAnswer (withRoute (withCrim cfg fa na ic bi)
      st en rt) ans).reward = -1 from hsent)] at h4
    obtain rfl := Except.ok.inj h4
    rw [hc2]
    rfl

/-- Witness for C8 amended: the explicit reward -5 is rejected (the run
from cfgNegFive never succeeds and its reward step raises ValueError),
and the sentinel run from cfgNegOne receives the default 2 * 10 = 20. -/
theorem generate_reward_witness :
    cfgNegFive.generate envX dbX oX true false false ≠ .ok cfgNegOneGen ∧
    genRewardStage cfgNegFive envX = .error .valueFailure ∧
    cfgNegOneGen.reward =
      ((cfgNegOneGen.route.length * envX.bPointsToCreditsRatio : Nat) :
        Int) :=
  ⟨(generate_reward_amended cfgNegFive envX dbX oX true false false).1
      (by decide) |>.1 cfgNegOneGen,
   (generate_reward_amended cfgNegFive envX dbX oX true false false).1
      (by decide) |>.2 cfgNegFive rfl,
   (generate_reward_amended cfgNegOne envX dbX oX true false false).2
      (by decide) cfgNegOneGen rfl⟩

/-! ### Claim C7: the serialisation round trip. -/

theorem except_ok_bind {ε α β : Type} (a : α) (f : α → Except ε β) :
    (Except.ok a >>= f) = f a := rfl

theorem generate_ok_intro {cfg0 : BountyConfig} {env : GenEnv}
    {db : BountyDB} {o : GenOracle} {ncr fkc fnd : Bool}
    {fa na ic : String} {bi : Bool} {st en : String} {rt : List String}
    {ans : String} {rwd : Int}
    (h1 : genCriminalStage cfg0 env db o ncr (!fnd) = .ok (fa, na, ic, bi))
    (h2 : genRouteStage (withCrim cfg0 fa na ic bi) env o = .ok (st, en, rt))
    (h3 : genAnswerStage (withRoute (withCrim cfg0 fa na ic bi) st en rt)
      env o = .ok ans)
    (h4 : genRewardStage
      (withAnswer (withRoute (withCrim cfg0 fa na ic bi) st en rt) ans) env
      = .ok rwd) :
    cfg0.generate env db o ncr fkc fnd
      = .ok (finishTimesChecked
          (withReward
            (withAnswer (withRoute (withCrim cfg0 fa na ic bi) st en rt) ans)
            rwd) o fkc) := by
  simp only [BountyConfig.generate]
  rw [h1]
  simp only [except_ok_bind]
  rw [h2]
  simp only [except_ok_bind]
  rw [h3]
  simp only [except_ok_bind]
  rw [h4]
  simp only [except_ok_bind]

/-- C7: serialising a Bounty with toDict and reconstructing it with
fromDict on the reload path (dbReload true) yields a bounty whose route in
order, answer, checked dict, reward, issueTime and endTime are identical
(only the respawn task attachment is reset); the hypotheses are the
invariants every live bounty satisfies: nonempty route of known,
title-cased system names, known nonempty title-cased answer, nonnegative
reward, timestamps distinct from the -1 unset sentinel, and a checked dict
covering the route. Besides, the reload path consults the bounty database
for no check at all (the reconstruction is identical for every database),
and any route member missing from the serialised checked dict is
back-filled with the -1 unchecked sentinel. -/
theorem bounty_roundtrip :
    (∀ (b : Bounty) (env : GenEnv) (db : BountyDB) (o : GenOracle),
      b.route ≠ [] →
      (∀ s ∈ b.route, pyTitle s = s ∧ s ∈ env.systems) →
      b.answer ≠ "" → pyTitle b.answer = b.answer → b.answer ∈ env.systems →
      0 ≤ b.reward → b.issueTime ≠ -1 → b.endTime ≠ -1 →
      (∀ s ∈ b.route, (alLookup b.checked s).isSome) →
      Bounty.fromDict b.toDict env db o true
        = .ok { b with respawnTT := none }) ∧
    (∀ (d : BountyDict) (env : GenEnv) (db db2 : BountyDB) (o : GenOracle),
      Bounty.fromDict d env db o true = Bounty.fromDict d env db2 o true) ∧
    (∀ (d : BountyDict) (env : GenEnv) (db : BountyDB) (o : GenOracle)
      (b2 : Bounty), Bounty.fromDict d env db o true = .ok b2 →
      ∀ s ∈ b2.route, alLookup d.checked s = none →
        alLookup b2.checked s = some (-1)) := by
  refine ⟨?_, ?_, ?_⟩
  · intro b env db o hne hro hans1 hans2 hans3 hr hit het hcov
    have hcfg : BountyConfig.init b.toDict.faction "" none b.toDict.route
        "" "" b.toDict.answer b.toDict.checked b.toDict.reward
        b.toDict.issueTime b.toDict.endTime "" [] ""
        = (⟨pyLower b.faction, "", false, b.route, "", "", b.answer,
            b.checked, b.reward, b.issueTime, b.endTime, "", [], "", false,
            false⟩ : BountyConfig) := by
      simp only [BountyConfig.init, Bounty.toDict]
      rw [map_pyTitle_fixed (fun s hs => (hro s hs).1), hans2]
      rfl
    have hs1 : genCriminalStage (⟨pyLower b.faction, "", false, b.route,
        "", "", b.answer, b.checked, b.reward, b.issueTime, b.endTime, "",
        [], "", false, false⟩ : BountyConfig) env db o false (!true)
        = .ok (pyLower b.faction, "", "", false) := genCriminalStage_skip
    have hs2 : genRouteStage (withCrim (⟨pyLower b.faction, "", false,
        b.route, "", "", b.answer, b.checked, b.reward, b.issueTime,
        b.endTime, "", [], "", false, false⟩ : BountyConfig)
        (pyLower b.faction) "" "" false) env o = .ok ("", "", b.route) :=
      genRouteStage_explicit hne (fun s hs => (hro s hs).2)
    have hs3 : genAnswerStage (withRoute (withCrim (⟨pyLower b.faction, "",
        false, b.route, "", "", b.answer, b.checked, b.reward, b.issueTime,
        b.endTime, "", [], "", false, false⟩ : BountyConfig)
        (pyLower b.faction) "" "" false) "" "" b.route) env o
        = .ok b.answer :=
      genAnswerStage_explicit hans1 hans3
    have hs4 : genRewardStage (withAnswer (withRoute (withCrim
        (⟨pyLower b.faction, "", false, b.route, "", "", b.answer,
          b.checked, b.reward, b.issueTime, b.endTime, "", [], "", false,
          false⟩ : BountyConfig) (pyLower b.faction) "" "" false)
        "" "" b.route) b.answer) env = .ok b.reward :=
      genRewardStage_nonneg hr
    have hgen := @generate_ok_intro _ _ _ _ _ true _ _ _ _ _ _ _ _ _ _
      hs1 hs2 hs3 hs4
    have hfin : finishTimesChecked (withReward (withAnswer (withRoute
        (withCrim (⟨pyLower b.faction, "", false, b.route, "", "",
          b.answer, b.checked, b.reward, b.issueTime, b.endTime, "", [],
          "", false, false⟩ : BountyConfig) (pyLower b.faction) "" ""
          false) "" "" b.route) b.answer) b.reward) o true
        = (⟨pyLower b.faction, "", false, b.route, "", "", b.answer,
            b.checked, b.reward, b.issueTime, b.endTime, "", [], "", true,
            false⟩ : BountyConfig) := by
      simp only [finishTimesChecked, genCheckedStage]
      rw [show (withReward (withAnswer (withRoute (withCrim
        (⟨pyLower b.faction, "", false, b.route, "", "", b.answer,
          b.checked, b.reward, b.issueTime, b.endTime, "", [], "", false,
          false⟩ : BountyConfig) (pyLower b.faction) "" "" false) "" ""
          b.route) b.answer) b.reward).issueTime = b.issueTime from rfl]
      rw [if_neg hit]
      rw [show (withReward (withAnswer (withRoute (withCrim
        (⟨pyLower b.faction, "", false, b.route, "", "", b.answer,
          b.checked, b.reward, b.issueTime, b.endTime, "", [], "", false,
          false⟩ : BountyConfig) (pyLower b.faction) "" "" false) "" ""
          b.route) b.answer) b.reward).endTime = b.endTime from rfl]
      rw [if_neg het]
      have hnoop := genCheckedFold_true_noop b.route b.checked hcov
      simp [BountyConfig.mk.injEq, hnoop, withCrim, withRoute, withAnswer,
        withReward]
    rw [hfin] at hgen
    show (BountyConfig.init b.toDict.faction "" none b.toDict.route "" ""
      b.toDict.answer b.toDict.checked b.toDict.reward b.toDict.issueTime
      b.toDict.endTime "" [] "").generate env db o false true true >>=
        (fun c2 => Except.ok (Bounty.fromConfig c2
          b.toDict.criminalFaction)) = _
    rw [hcfg, hgen]
    simp only [except_ok_bind]
    rfl
  · intro d env db db2 o
    rfl
  · intro d env db o b2 h s hs hnone
    unfold Bounty.fromDict at h
    rw [except_bind_ok] at h
    obtain ⟨c2, hgen, hok⟩ := h
    obtain rfl : Bounty.fromConfig c2 d.criminalFaction = b2 :=
      Except.ok.inj hok
    obtain ⟨fa, na, ic, bi, st, en, rt, ans, rwd, h1, h2, h3, h4, hc2⟩ :=
      generate_ok_elim hgen
    have hcheck : (Bounty.fromConfig c2 d.criminalFaction).checked
        = genCheckedFold true rt d.checked := by
      rw [hc2]
      rfl
    have hroute : (Bounty.fromConfig c2 d.criminalFaction).route = rt := by
      rw [hc2]
      rfl
    rw [hcheck]
    rw [hroute] at hs
    exact genCheckedFold_backfill rt d.checked s hs hnone

/-- Witness for C7: the concrete bounty bRT round trips through toDict and
fromDict on the reload path. -/
theorem bounty_roundtrip_witness :
    Bounty.fromDict bRT.toDict envRT dbX oX true
      = .ok { bRT with respawnTT := none } :=
  bounty_roundtrip.1 bRT envRT dbX oX (by decide) (by decide) (by decide)
    (by decide) (by decide) (by decide) (by decide) (by decide) (by decide)

end GOF2
